import Mathlib

/-!
Verification of the OperaTicketMonitor core against its specification.

This file gives a shallow embedding, in Lean 4, of the pure core of the
program: the data model (`models.py`), the text normalizers and the shared
post-extraction pipeline (`scrapers.py`), the seat-adjacency algorithm
(`seat_checker.py`), the orchestration of adapters (`scrape_all_operas`),
the notification-state machine and its persistence (`models.py`,
`monitor.py`).  Text is modelled as `List Char`; Python `datetime` values
are modelled by a record of numeric fields; fallible operations return
`Option`/`Except`; the external notifier and the site adapters are taken
as function parameters, exactly as the spec treats them (collaborators).
-/

/-- Text is modelled as a list of characters (Python `str`). -/
abbrev Str := List Char

/-- Turn a Lean string literal into the `Str` model. -/
def str (s : String) : Str := s.data

/-- The digit character for `n < 10` (Python rendering of a single digit). -/
def dchar : Nat → Char
  | 0 => '0' | 1 => '1' | 2 => '2' | 3 => '3' | 4 => '4'
  | 5 => '5' | 6 => '6' | 7 => '7' | 8 => '8' | _ => '9'

/-- Numeric value of a decimal digit character (0 for non-digits). -/
def dval : Char → Nat
  | '0' => 0 | '1' => 1 | '2' => 2 | '3' => 3 | '4' => 4
  | '5' => 5 | '6' => 6 | '7' => 7 | '8' => 8 | '9' => 9
  | _ => 0

/-- Decimal digit test, Python `\d` on ASCII input / `str.isdigit`. -/
def isDig (c : Char) : Bool := '0' ≤ c && c ≤ '9'

/-- `int()` on a string of decimal digits. -/
def natOfDigits (s : Str) : Nat := s.foldl (fun a c => a * 10 + dval c) 0

/-- Python `str(n)` for a natural number. -/
def natStr (n : Nat) : Str := (Nat.repr n).data

/-- Python `str.lower` restricted to the alphabet this program handles:
ASCII letters plus the uppercase Polish letters that occur in the
scraped text and keyword tables. -/
def polishLower (c : Char) : Char :=
  if 'A' ≤ c && c ≤ 'Z' then Char.ofNat (c.toNat + 32)
  else if c = 'Ą' then 'ą' else if c = 'Ć' then 'ć'
  else if c = 'Ę' then 'ę' else if c = 'Ł' then 'ł'
  else if c = 'Ń' then 'ń' else if c = 'Ó' then 'ó'
  else if c = 'Ś' then 'ś' else if c = 'Ź' then 'ź'
  else if c = 'Ż' then 'ż' else c

/-- `models.TicketStatus`. -/
inductive TicketStatus where
  | available
  | limited
  | sold_out
  | unknown
deriving DecidableEq, Repr

/-- Python `datetime.datetime` (timezone-naive), as stored and compared by
the program. -/
structure Datetime where
  year : Nat
  month : Nat
  day : Nat
  hour : Nat
  minute : Nat
  second : Nat
  microsecond : Nat
deriving DecidableEq, Repr

/-- Python `datetime` comparison: lexicographic on
(year, month, day, hour, minute, second, microsecond). -/
def Datetime.ble (a b : Datetime) : Bool :=
  if a.year ≠ b.year then a.year < b.year
  else if a.month ≠ b.month then a.month < b.month
  else if a.day ≠ b.day then a.day < b.day
  else if a.hour ≠ b.hour then a.hour < b.hour
  else if a.minute ≠ b.minute then a.minute < b.minute
  else if a.second ≠ b.second then a.second < b.second
  else a.microsecond ≤ b.microsecond

/-- `models.Performance` (the `scrape_time`-free data carried by one row of
the schedule). -/
structure Performance where
  opera_name : Str
  opera_house : Str
  city : Str
  date : Option Datetime
  date_str : Str
  time : Str
  ticket_url : Str
  status : TicketStatus
  price_range : Str
  venue : Str
  additional_info : Str
deriving DecidableEq, Repr

/-- `models.Performance.unique_id`:
`f"{self.opera_house}|{self.opera_name}|{self.date_str}|{self.time}"`. -/
def Performance.unique_id (p : Performance) : Str :=
  p.opera_house ++ '|' :: p.opera_name ++ '|' :: p.date_str ++ '|' :: p.time

/-- `models.Performance.__eq__`: equality is equality of `unique_id`. -/
def Performance.eq (p q : Performance) : Bool :=
  decide (p.unique_id = q.unique_id)

/-- `models.ScrapeResult` (without the wall-clock `scrape_time` field,
which no claim touches). -/
structure ScrapeResult where
  opera_house : Str
  city : Str
  success : Bool
  performances : List Performance
  error_message : Str
deriving DecidableEq, Repr

/-- `seat_checker.SeatCheckResult`.  The counts are integers because the
source uses `-1` as the sentinel for an unknown total. -/
structure SeatCheckResult where
  performance : Performance
  has_adjacent_seats : Bool
  adjacent_seats_count : Int
  total_available_seats : Int
  seat_details : List Str
  ticket_url : Str
  error : Option Str
deriving DecidableEq, Repr

/-- `models.MonitorState`.  `notified_performances` is a Python `set`
(modelled as a `Finset`); `last_check_times` and `last_results` are
insertion-ordered dicts (modelled as association lists). -/
structure MonitorState where
  notified_performances : Finset Str
  last_check_times : List (Str × Datetime)
  last_results : List (Str × ScrapeResult)
deriving DecidableEq

/-- `models.MonitorState.should_notify`:
`performance.unique_id() not in self.notified_performances`. -/
def MonitorState.should_notify (s : MonitorState) (p : Performance) : Bool :=
  decide (p.unique_id ∉ s.notified_performances)

/-- `models.MonitorState.mark_notified`:
`self.notified_performances.add(performance.unique_id())`. -/
def MonitorState.mark_notified (s : MonitorState) (p : Performance) : MonitorState :=
  { s with notified_performances := insert p.unique_id s.notified_performances }

/-- `config.OperaHouse` (the fields the orchestrator reads). -/
structure OperaHouse where
  name : Str
  city : Str
  enabled : Bool
deriving DecidableEq, Repr

/-- `scrapers.is_future_date`.  The wall clock `datetime.now()` is passed
in explicitly as `now`; the source truncates it to midnight and keeps a
date iff it is that midnight or later.  A `None` date is excluded. -/
def is_future_date (now : Datetime) (dt : Option Datetime) : Bool :=
  match dt with
  | none => false
  | some d =>
      let today : Datetime :=
        { now with hour := 0, minute := 0, second := 0, microsecond := 0 }
      today.ble d

/-- `scrapers.is_available`: confirmed availability means
`AVAILABLE` or `LIMITED`. -/
def is_available (st : TicketStatus) : Bool :=
  st = TicketStatus.available || st = TicketStatus.limited

/-- `config.AVAILABILITY_KEYWORDS`. -/
def AVAILABILITY_KEYWORDS : List Str :=
  [str "kup bilet", str "bilety dostępne", str "kup teraz", str "rezerwuj",
   str "dostępne", str "wolne miejsca", str "buy ticket", str "available"]

/-- `config.SOLD_OUT_KEYWORDS`. -/
def SOLD_OUT_KEYWORDS : List Str :=
  [str "wyprzedane", str "brak biletów", str "sold out", str "niedostępne",
   str "brak miejsc"]

/-- `k` is a prefix of `s` (helper for the substring test). -/
def startsWithKw : Str → Str → Bool
  | [], _ => true
  | _ :: _, [] => false
  | a :: as, b :: bs => a = b && startsWithKw as bs

/-- Python's substring test `k in s`. -/
def containsKw (s k : Str) : Bool :=
  match s with
  | [] => startsWithKw k []
  | c :: t => startsWithKw k (c :: t) || containsKw t k

/-- `scrapers.BaseScraper._detect_availability`: lowercase the text, scan
the sold-out keywords first, then the availability keywords. -/
def detect_availability (text : Str) : TicketStatus :=
  let text_lower := text.map polishLower
  match SOLD_OUT_KEYWORDS.find? (fun k => containsKw text_lower k) with
  | some _ => TicketStatus.sold_out
  | none =>
      match AVAILABILITY_KEYWORDS.find? (fun k => containsKw text_lower k) with
      | some _ => TicketStatus.available
      | none => TicketStatus.unknown

/-- `re.search`: try a position matcher at each start position, leftmost
success wins. -/
def searchPos (f : Str → Option α) : Str → Option α
  | [] => f []
  | c :: t =>
      match f (c :: t) with
      | some v => some v
      | none => searchPos f t

/-- Match `\d{1,2}` followed by the literal `sep`, greedily (two digits
preferred, with the backtracking a regex engine would do), returning the
matched number and the rest of the input. -/
def tryNumSep (sep : Char) : Str → Option (Nat × Str)
  | a :: b :: c :: t =>
      if isDig a then
        if isDig b then (if c = sep then some (natOfDigits [a, b], t) else none)
        else if b = sep then some (natOfDigits [a], c :: t)
        else none
      else none
  | [a, b] => if isDig a && b = sep then some (natOfDigits [a], []) else none
  | _ => none

/-- Match `\d{4}` (exactly four digits), returning the number and rest. -/
def try4Dig : Str → Option (Nat × Str)
  | a :: b :: c :: d :: t =>
      if isDig a && isDig b && isDig c && isDig d then
        some (natOfDigits [a, b, c, d], t)
      else none
  | _ => none

/-- Match `\d{2}` (exactly two digits), returning the number and rest. -/
def try2Dig : Str → Option (Nat × Str)
  | a :: b :: t => if isDig a && isDig b then some (natOfDigits [a, b], t) else none
  | _ => none

/-- `(\d{1,2})\.(\d{1,2})\.(\d{4})` (or with `/`) anchored at the current
position; yields (day, month, year). -/
def tryDMYAt (sep : Char) (s : Str) : Option (Nat × Nat × Nat) := do
  let (d, r1) ← tryNumSep sep s
  let (m, r2) ← tryNumSep sep r1
  let (y, _) ← try4Dig r2
  pure (d, m, y)

/-- `(\d{4})-(\d{2})-(\d{2})` anchored at the current position;
yields (year, month, day). -/
def tryISOAt (s : Str) : Option (Nat × Nat × Nat) := do
  let (y, r1) ← try4Dig s
  match r1 with
  | '-' :: r2 => do
      let (m, r3) ← try2Dig r2
      match r3 with
      | '-' :: r4 => do
          let (d, _) ← try2Dig r4
          pure (y, m, d)
      | _ => none
  | _ => none

/-- `\w` of the Python regexes, on the alphabet this program meets:
ASCII alphanumerics, underscore, and Polish letters. -/
def isWordChar (c : Char) : Bool :=
  c.isAlphanum || c = '_' ||
  ['ą', 'ć', 'ę', 'ł', 'ń', 'ó', 'ś', 'ź', 'ż',
   'Ą', 'Ć', 'Ę', 'Ł', 'Ń', 'Ó', 'Ś', 'Ź', 'Ż'].contains c

/-- After the month word of `(\d{1,2}) (\w+) (\d{4})`: a space followed by
exactly four digits. -/
def checkSpaceYear : Str → Option Nat
  | ' ' :: r => (try4Dig r).map Prod.fst
  | _ => none

/-- Greedy backtracking of `(\w+)` inside `(\d{1,2}) (\w+) (\d{4})`:
the candidate word is carried reversed, and is shrunk from the right
(one character moved back onto the rest) until `' ' ++ \d{4}` follows,
exactly as the regex engine backtracks from the maximal run. -/
def tryWordRev : Str → Str → Option (Str × Nat)
  | [], _ => none
  | c :: csRev, rest =>
      match checkSpaceYear rest with
      | some y => some ((c :: csRev).reverse, y)
      | none => tryWordRev csRev (c :: rest)

/-- `(\d{1,2}) (\w+) (\d{4})` anchored at the current position;
yields (day, month word, year). -/
def tryMonthAt (s : Str) : Option (Nat × Str × Nat) := do
  let (d, r1) ← tryNumSep ' ' s
  let (run, rest) := r1.span isWordChar
  match run with
  | [] => none
  | c :: cs => (tryWordRev (c :: cs).reverse rest).map (fun wy => (d, wy.1, wy.2))

/-- The fixed Polish month-name table of
`scrapers.BaseScraper._parse_polish_date` (genitive and nominative). -/
def polish_months : List (Str × Nat) :=
  [(str "stycznia", 1), (str "lutego", 2), (str "marca", 3), (str "kwietnia", 4),
   (str "maja", 5), (str "czerwca", 6), (str "lipca", 7), (str "sierpnia", 8),
   (str "września", 9), (str "października", 10), (str "listopada", 11), (str "grudnia", 12),
   (str "styczeń", 1), (str "luty", 2), (str "marzec", 3), (str "kwiecień", 4),
   (str "maj", 5), (str "czerwiec", 6), (str "lipiec", 7), (str "sierpień", 8),
   (str "wrzesień", 9), (str "październik", 10), (str "listopad", 11), (str "grudzień", 12)]

/-- Look a lowercased month word up in the table. -/
def polishMonthNum (w : Str) : Option Nat :=
  (polish_months.find? (fun kv => decide (kv.1 = w))).map Prod.snd

/-- Gregorian leap year. -/
def isLeap (y : Nat) : Bool := (y % 4 = 0 && y % 100 ≠ 0) || y % 400 = 0

/-- Days in a month, as Python's `datetime` validates them. -/
def daysInMonth (y m : Nat) : Nat :=
  if m = 2 then (if isLeap y then 29 else 28)
  else if m = 4 || m = 6 || m = 9 || m = 11 then 30
  else 31

/-- `datetime(year, month, day)` (midnight): `some` iff the triple is a
valid calendar date in Python's supported year range, else `none`
(a raised `ValueError`). -/
def mkDate (y m d : Nat) : Option Datetime :=
  if 1 ≤ y && y ≤ 9999 && 1 ≤ m && m ≤ 12 && 1 ≤ d && d ≤ daysInMonth y m
  then some ⟨y, m, d, 0, 0, 0, 0⟩ else none

/-- One iteration of `_parse_polish_date`'s loop for `DD.MM.YYYY`:
`re.search`, then `strptime("%d.%m.%Y")` on the match; `none` covers
both no-match and a raised `ValueError` (either way the loop moves on
to the next pattern). -/
def datePat1 (s : Str) : Option Datetime :=
  (searchPos (tryDMYAt '.') s).bind (fun t => mkDate t.2.2 t.2.1 t.1)

/-- The `DD/MM/YYYY` iteration (`strptime("%d/%m/%Y")`). -/
def datePat2 (s : Str) : Option Datetime :=
  (searchPos (tryDMYAt '/') s).bind (fun t => mkDate t.2.2 t.2.1 t.1)

/-- The `YYYY-MM-DD` iteration (`strptime("%Y-%m-%d")`). -/
def datePat3 (s : Str) : Option Datetime :=
  (searchPos tryISOAt s).bind (fun t => mkDate t.1 t.2.1 t.2.2)

/-- The `DD <month-name> YYYY` iteration: search, look the lowercased
month word up in the fixed table, construct the `datetime`; a missing
month or a `ValueError` yields `none`. -/
def datePat4 (s : Str) : Option Datetime :=
  (searchPos tryMonthAt s).bind (fun t =>
    match polishMonthNum (t.2.1.map polishLower) with
    | some m => mkDate t.2.2 m t.1
    | none => none)

/-- `scrapers.BaseScraper._parse_polish_date`: four patterns in order
(`DD.MM.YYYY`, `DD/MM/YYYY`, `YYYY-MM-DD`, `DD <month-name> YYYY`).
For each pattern the first `re.search` match is taken; if its numbers do
not form a valid calendar date the loop `continue`s with the next
pattern; `none` when no pattern produces a valid date. -/
def parse_polish_date (s : Str) : Option Datetime :=
  match datePat1 s with
  | some dt => some dt
  | none =>
  match datePat2 s with
  | some dt => some dt
  | none =>
  match datePat3 s with
  | some dt => some dt
  | none => datePat4 s

/-- Optional `[-_]?` separator of the seat-identifier patterns. -/
def optSep : Str → Str
  | c :: t => if c = '-' || c = '_' then t else c :: t
  | [] => []

/-- Consume a literal (given lowercase) case-insensitively, or fail. -/
def stripCI : Str → Str → Option Str
  | [], s => some s
  | p :: ps, c :: cs => if polishLower c = p then stripCI ps cs else none
  | _ :: _, [] => none

/-- Tail of seat pattern 1 after the row group and the `s`/`m` word:
`[-_]?(\d+)`. -/
def finishP1 (row : Str) (r : Str) : Option (Str × Nat) :=
  let r7 := optSep r
  match r7.span isDig with
  | (ds, _) => if ds.isEmpty then none else some (row, natOfDigits ds)

/-- Seat pattern 1,
`r(?:ow|zad)?[-_]?(\d+)[-_]?(?:s(?:eat)?|m(?:iejsce)?)[-_]?(\d+)`
(case-insensitive), anchored at the current position; yields the row
digits (as text, the captured group) and the seat number. -/
def tryP1At (s : Str) : Option (Str × Nat) :=
  match s with
  | [] => none
  | c :: r =>
      if polishLower c = 'r' then
        let r1 := match stripCI (str "ow") r with
                  | some t => t
                  | none =>
                      match stripCI (str "zad") r with
                      | some t => t
                      | none => r
        let r2 := optSep r1
        match r2.span isDig with
        | (row, r3) =>
            if row.isEmpty then none
            else
              match optSep r3 with
              | [] => none
              | c2 :: r5 =>
                  if polishLower c2 = 's' then
                    finishP1 row (match stripCI (str "eat") r5 with
                                  | some t => t
                                  | none => r5)
                  else if polishLower c2 = 'm' then
                    finishP1 row (match stripCI (str "iejsce") r5 with
                                  | some t => t
                                  | none => r5)
                  else none
      else none

/-- Seat pattern 2, `(\d+)[-_](\d+)`, anchored at the current position. -/
def tryP2At (s : Str) : Option (Str × Nat) :=
  match s.span isDig with
  | (ds, rest) =>
      if ds.isEmpty then none
      else
        match rest with
        | [] => none
        | c :: r2 =>
            if c = '-' || c = '_' then
              match r2.span isDig with
              | (ds2, _) => if ds2.isEmpty then none else some (ds, natOfDigits ds2)
            else none

/-- Seat pattern 3, `r(\d+)m(\d+)` (case-insensitive), anchored at the
current position. -/
def tryP3At (s : Str) : Option (Str × Nat) :=
  match s with
  | [] => none
  | c :: r =>
      if polishLower c = 'r' then
        match r.span isDig with
        | (ds, rest) =>
            if ds.isEmpty then none
            else
              match rest with
              | [] => none
              | m :: r2 =>
                  if polishLower m = 'm' then
                    match r2.span isDig with
                    | (ds2, _) =>
                        if ds2.isEmpty then none else some (ds, natOfDigits ds2)
                  else none
      else none

/-- Parse one seat identifier: the three patterns are tried in order,
each searched over the whole identifier; identifiers no pattern matches
yield `none` and are dropped. -/
def parseSeatId (id : Str) : Option (Str × Nat) :=
  match searchPos tryP1At id with
  | some v => some v
  | none =>
      match searchPos tryP2At id with
      | some v => some v
      | none => searchPos tryP3At id

/-- `seats_by_row[row].append(seat)` with defaulting: dict insertion
order, the entry created at the end on first sight of a row. -/
def addSeat (acc : List (Str × List Nat)) (row : Str) (seat : Nat) :
    List (Str × List Nat) :=
  if row ∈ acc.map Prod.fst then
    acc.map (fun rs => if rs.1 = row then (rs.1, rs.2 ++ [seat]) else rs)
  else acc ++ [(row, [seat])]

/-- The grouping loop of `SeatChecker._find_adjacent_seats`. -/
def buildRows (ids : List Str) : List (Str × List Nat) :=
  ids.foldl (fun acc id =>
    match parseSeatId id with
    | some rs => addSeat acc rs.1 rs.2
    | none => acc) []

/-- The pair descriptor the source formats,
an f-string rendering of row and the two seat numbers. -/
def seatPairDescr (row : Str) (a b : Nat) : Str :=
  str "Rząd " ++ row ++ str ", miejsca " ++ natStr a ++ '-' :: natStr b

/-- The emission loop: one descriptor for every consecutive position pair
of the (sorted) row whose numbers differ by exactly one. -/
def adjDescr (row : Str) : List Nat → List Str
  | a :: b :: t =>
      (if b - a = 1 then [seatPairDescr row a b] else []) ++ adjDescr row (b :: t)
  | _ => []

/-- `seat_checker.SeatChecker._find_adjacent_seats`. -/
def find_adjacent_seats (ids : List Str) : List Str :=
  (buildRows ids).flatMap (fun rs => adjDescr rs.1 (rs.2.insertionSort (· ≤ ·)))

/-- Group parsed (row, seat) pairs by row, first-occurrence row order,
written in the spec's group-by style (for the refinement proof of the
adjacency claim). -/
def groupByRow : List (Str × Nat) → List (Str × List Nat)
  | [] => []
  | (r, s) :: t =>
      (r, s :: (t.filter (fun q => decide (q.1 = r))).map Prod.snd) ::
      groupByRow (t.filter (fun q => !decide (q.1 = r)))
termination_by l => l.length
decreasing_by
  exact Nat.lt_succ_of_le (List.length_filter_le _ _)

/-- The adjacency algorithm as the spec words it: parse each identifier
by the fixed patterns (dropping unparseable ones), group by row, sort
each row ascending, emit one descriptor per consecutive sorted pair
differing by exactly one. -/
def adjacency_spec (ids : List Str) : List Str :=
  let parsed := ids.filterMap parseSeatId
  (groupByRow parsed).flatMap (fun rs =>
    let ss := rs.2.insertionSort (· ≤ ·)
    (ss.zip ss.tail).filterMap (fun ab =>
      if ab.2 - ab.1 = 1 then some (seatPairDescr rs.1 ab.1 ab.2) else none))

/-- `scrapers.scrape_all_operas`.  One adapter per enabled venue; the
adapters run under `asyncio.gather(..., return_exceptions=True)`, so an
adapter is a function returning either a `ScrapeResult` or a raised
exception's text (`Except.error`); an exception is converted into a
failed `ScrapeResult` for that venue.  `gather` preserves the order of
the task list. -/
def scrape_all_operas (adapter : OperaHouse → Except Str ScrapeResult)
    (opera_houses : List OperaHouse) : List ScrapeResult :=
  (opera_houses.filter (fun h => h.enabled)).map (fun h =>
    match adapter h with
    | Except.ok r => r
    | Except.error e =>
        { opera_house := h.name, city := h.city, success := false,
          performances := [], error_message := e })

/-- Step 3 of `monitor.OperaTicketMonitor.check_once` (the notification
commit): filter the seat-checked candidates to the not-yet-notified ones,
dispatch them through the notifier (a collaborator, passed as a
function), and only on success mark every one notified and persist the
state.  The returned flag records whether the state was saved. -/
def check_once_commit (s : MonitorState)
    (performances_with_seats : List SeatCheckResult)
    (send_seat_notification : List SeatCheckResult → Bool) :
    MonitorState × Bool :=
  let new_results :=
    performances_with_seats.filter (fun r => s.should_notify r.performance)
  if new_results.isEmpty then (s, false)
  else if send_seat_notification new_results then
    (new_results.foldl (fun st r => st.mark_notified r.performance) s, true)
  else (s, false)

/-- The two-digit zero-padded rendering (`%02d`) for `n ≤ 99`. -/
def pad2 (n : Nat) : Str := [dchar (n / 10), dchar (n % 10)]

/-- The four-digit zero-padded rendering (`%04d`) for `n ≤ 9999`. -/
def pad4 (n : Nat) : Str :=
  [dchar (n / 1000), dchar (n / 100 % 10), dchar (n / 10 % 10), dchar (n % 10)]

/-- The six-digit zero-padded rendering (`%06d`) for `n ≤ 999999`. -/
def pad6 (n : Nat) : Str :=
  [dchar (n / 100000), dchar (n / 10000 % 10), dchar (n / 1000 % 10),
   dchar (n / 100 % 10), dchar (n / 10 % 10), dchar (n % 10)]

/-- Python `datetime.isoformat()`:
`YYYY-MM-DDTHH:MM:SS`, with `.ffffff` appended iff microsecond ≠ 0. -/
def Datetime.isoformat (d : Datetime) : Str :=
  pad4 d.year ++ '-' :: pad2 d.month ++ '-' :: pad2 d.day ++
  'T' :: pad2 d.hour ++ ':' :: pad2 d.minute ++ ':' :: pad2 d.second ++
  (if d.microsecond = 0 then [] else '.' :: pad6 d.microsecond)

/-- Python's `datetime` invariants: the field ranges every constructed
`datetime` satisfies. -/
def ValidDatetime (d : Datetime) : Prop :=
  1 ≤ d.year ∧ d.year ≤ 9999 ∧ 1 ≤ d.month ∧ d.month ≤ 12 ∧
  1 ≤ d.day ∧ d.day ≤ daysInMonth d.year d.month ∧
  d.hour ≤ 23 ∧ d.minute ≤ 59 ∧ d.second ≤ 59 ∧ d.microsecond ≤ 999999

/-- Match `\d{6}` (exactly six digits), returning the number and rest. -/
def try6Dig : Str → Option (Nat × Str)
  | a :: b :: c :: d :: e :: f :: t =>
      if [a, b, c, d, e, f].all isDig then
        some (natOfDigits [a, b, c, d, e, f], t)
      else none
  | _ => none

/-- Require one literal character at the head of the input. -/
def expectChar (c : Char) : Str → Option Str
  | x :: t => if x = c then some t else none
  | [] => none

/-- Python `datetime.fromisoformat` on the shapes `isoformat` emits:
positional parse `YYYY-MM-DDTHH:MM:SS[.ffffff]` with full range
validation; `none` models the raised `ValueError`. -/
def fromisoformat (s : Str) : Option Datetime := do
  let (y, r1) ← try4Dig s
  let r2 ← expectChar '-' r1
  let (m, r3) ← try2Dig r2
  let r4 ← expectChar '-' r3
  let (d, r5) ← try2Dig r4
  let r6 ← expectChar 'T' r5
  let (h, r7) ← try2Dig r6
  let r8 ← expectChar ':' r7
  let (n, r9) ← try2Dig r8
  let r10 ← expectChar ':' r9
  let (sec, r11) ← try2Dig r10
  let micro ← (match r11 with
    | [] => some (0 : Nat)
    | c :: rest =>
        if c = '.' then
          match try6Dig rest with
          | some (u, rr) => if rr.isEmpty then some u else none
          | none => none
        else none)
  if 1 ≤ y && 1 ≤ m && m ≤ 12 && 1 ≤ d && d ≤ daysInMonth y m &&
     h ≤ 23 && n ≤ 59 && sec ≤ 59
  then some ⟨y, m, d, h, n, sec, micro⟩ else none

/-- The JSON payload `MonitorState.save` writes: the notified set as a
list, the check times as ISO strings.  `last_results` is not written. -/
structure SavedState where
  notified_performances : List Str
  last_check_times : List (Str × Str)
deriving DecidableEq

/-- `models.MonitorState.save`, relationally: `list(set)` enumerates the
notified set in an unspecified order (Python set iteration order), and
the check-time dict is mapped through `isoformat` keeping dict order. -/
def SaveWrites (s : MonitorState) (d : SavedState) : Prop :=
  d.notified_performances.Nodup ∧
  d.notified_performances.toFinset = s.notified_performances ∧
  d.last_check_times = s.last_check_times.map (fun kv => (kv.1, kv.2.isoformat))

/-- Option-valued map over a list: all elements must succeed (a raised
exception anywhere aborts the comprehension). -/
def mapOption (f : α → Option β) : List α → Option (List β)
  | [] => some []
  | a :: t => (f a).bind (fun b => (mapOption f t).map (fun bs => b :: bs))

/-- `models.MonitorState.load` applied to well-formed JSON data: rebuild
the set with `set(...)`, parse every check time with `fromisoformat`
(a failure there raises, modelled as `none`), and leave `last_results`
empty — it is never persisted. -/
def MonitorState.load (d : SavedState) : Option MonitorState :=
  (mapOption (fun kv => (fromisoformat kv.2).map (fun t => (kv.1, t)))
      d.last_check_times).map
    (fun times =>
      { notified_performances := d.notified_performances.toFinset,
        last_check_times := times, last_results := [] })

/-- Set-insertion loop behind `firstOccurrences`: walk the list keeping
an element iff no earlier element had its identity. -/
def firstOccAux (seen : List Str) : List Performance → List Performance
  | [] => []
  | p :: t =>
      if p.unique_id ∈ seen then firstOccAux seen t
      else p :: firstOccAux (p.unique_id :: seen) t

/-- First-occurrence representatives of a performance list under the
program's equality (`unique_id` equality): what a Python `set` retains,
in input order. -/
def firstOccurrences (xs : List Performance) : List Performance :=
  firstOccAux [] xs

/-- `list(set(performances))`, relationally: Python's set keeps the first
element inserted of each equality class and iterates in an unspecified,
hash-dependent order, so the admissible outputs are exactly the
permutations of the first-occurrence representatives. -/
def PySetListAdmissible (xs out : List Performance) : Prop :=
  out.Perm (firstOccurrences xs)

/-- Modelled from the spec: `is_within_lookahead(date, max_months_ahead)`
— today-or-later AND at most `max_months_ahead` calendar months ahead
(month-index arithmetic); `none` always fails.  No function of the
source implements this; `scrapers.is_future_date` is the code the spec
describes, and the repository's own tests
(`tests/test_helpers.py::TestIsFutureDate`) assert this bounded
behaviour of it. -/
def is_within_lookahead (now : Datetime) (max_months_ahead : Nat)
    (dt : Option Datetime) : Bool :=
  match dt with
  | none => false
  | some d =>
      is_future_date now (some d) &&
      d.year * 12 + (d.month - 1) ≤ now.year * 12 + (now.month - 1) + max_months_ahead

/-- A sample performance used by the concrete witnesses. -/
def perfHalka : Performance :=
  { opera_name := str "Halka", opera_house := str "Teatr Wielki - Opera Narodowa",
    city := str "Warszawa", date := some ⟨2026, 6, 15, 0, 0, 0, 0⟩,
    date_str := str "15.06.2026", time := str "19:00",
    ticket_url := str "https://teatrwielki.pl/bilety/",
    status := TicketStatus.unknown, price_range := [], venue := [],
    additional_info := [] }

/-- A second sample performance, with an identity distinct from
`perfHalka`. -/
def perfStraszny : Performance :=
  { opera_name := str "Straszny Dwór", opera_house := str "Opera Krakowska",
    city := str "Kraków", date := some ⟨2027, 2, 1, 0, 0, 0, 0⟩,
    date_str := str "1.02.2027", time := str "18:00",
    ticket_url := str "https://opera.krakow.pl/pl/bilety",
    status := TicketStatus.available, price_range := [], venue := [],
    additional_info := [] }

/-- A sample seat-check result wrapping `perfHalka`. -/
def seatResHalka : SeatCheckResult :=
  { performance := perfHalka, has_adjacent_seats := true,
    adjacent_seats_count := 1, total_available_seats := 4,
    seat_details := [str "Rząd 5, miejsca 10-11"],
    ticket_url := perfHalka.ticket_url, error := none }

/-- C1.  `should_notify` is true iff the performance's identity key is
not in the notified set, and for a performance whose identity is already
notified it stays false under any change of availability status, because
`unique_id` does not depend on the status. -/
theorem should_notify_iff_not_notified (s : MonitorState) (p : Performance)
    (st : TicketStatus) :
    (s.should_notify p = true ↔ p.unique_id ∉ s.notified_performances) ∧
    (p.unique_id ∈ s.notified_performances →
      s.should_notify { p with status := st } = false) := by
  constructor
  · simp [MonitorState.should_notify]
  · intro h
    have hid : ({ p with status := st } : Performance).unique_id = p.unique_id := rfl
    simp [MonitorState.should_notify, hid, h]

/-- Witness for C1 at a concrete state and performance: the identity is
in the notified set and `should_notify` of the status-changed record is
false. -/
theorem should_notify_iff_not_notified_witness :
    perfHalka.unique_id ∈
      ({perfHalka.unique_id} : Finset Str) ∧
    MonitorState.should_notify
      ⟨{perfHalka.unique_id}, [], []⟩
      { perfHalka with status := TicketStatus.available } = false :=
  ⟨Finset.mem_singleton_self _,
   (should_notify_iff_not_notified ⟨{perfHalka.unique_id}, [], []⟩ perfHalka
      TicketStatus.available).2 (Finset.mem_singleton_self _)⟩

/-- C2.  If the notifier's dispatch of the batch of new qualifying
performances fails, no performance of the batch is marked notified and
the state is not persisted: the notified set (indeed the whole state)
after the failed commit equals the one before, and the save flag is
false. -/
theorem check_once_commit_failure (s : MonitorState)
    (withSeats : List SeatCheckResult) (send : List SeatCheckResult → Bool)
    (hfail : send (withSeats.filter (fun r => s.should_notify r.performance)) = false) :
    (check_once_commit s withSeats send).1.notified_performances
        = s.notified_performances ∧
    (check_once_commit s withSeats send).2 = false := by
  unfold check_once_commit
  by_cases h : (withSeats.filter (fun r => s.should_notify r.performance)).isEmpty
  · simp [h]
  · simp [h, hfail]

/-- Witness for C2: a concrete one-element batch, a notifier that fails,
an initially empty state; the state comes back unchanged and unsaved. -/
theorem check_once_commit_failure_witness :
    (fun (_ : List SeatCheckResult) => false)
        ([seatResHalka].filter (fun r =>
          (⟨∅, [], []⟩ : MonitorState).should_notify r.performance)) = false ∧
    (check_once_commit ⟨∅, [], []⟩ [seatResHalka]
        (fun _ => false)).1.notified_performances = (∅ : Finset Str) ∧
    (check_once_commit ⟨∅, [], []⟩ [seatResHalka] (fun _ => false)).2 = false :=
  ⟨rfl,
   (check_once_commit_failure ⟨∅, [], []⟩ [seatResHalka] (fun _ => false) rfl).1,
   (check_once_commit_failure ⟨∅, [], []⟩ [seatResHalka] (fun _ => false) rfl).2⟩

/-- C5 (code bug).  The future-date filter the adapters apply,
`is_future_date`, applies no upper lookahead bound: with the clock at
2026-10-12, the date 2027-08-08 — three hundred days, ten calendar
months ahead, outside the 8-month default window the repository's own
tests assert — still passes, while the spec's `is_within_lookahead`
rejects it; a missing date always fails. -/
theorem is_future_date_ignores_lookahead_bound :
    is_future_date ⟨2026, 10, 12, 14, 30, 0, 0⟩ (some ⟨2027, 8, 8, 0, 0, 0, 0⟩) = true ∧
    is_within_lookahead ⟨2026, 10, 12, 14, 30, 0, 0⟩ 8
      (some ⟨2027, 8, 8, 0, 0, 0, 0⟩) = false ∧
    is_future_date ⟨2026, 10, 12, 14, 30, 0, 0⟩ none = false := by
  decide

/-- C7.  The availability classifier: a text (after lowercasing) that
contains both a sold-out keyword and an availability keyword classifies
as sold_out — the sold-out scan runs first — and a text containing no
keyword of either list classifies as unknown. -/
theorem detect_availability_precedence (text : Str) :
    ((∃ k ∈ SOLD_OUT_KEYWORDS, containsKw (text.map polishLower) k = true) →
     (∃ k ∈ AVAILABILITY_KEYWORDS, containsKw (text.map polishLower) k = true) →
      detect_availability text = TicketStatus.sold_out) ∧
    ((∀ k ∈ SOLD_OUT_KEYWORDS, containsKw (text.map polishLower) k = false) →
     (∀ k ∈ AVAILABILITY_KEYWORDS, containsKw (text.map polishLower) k = false) →
      detect_availability text = TicketStatus.unknown) := by
  constructor
  · rintro ⟨k, hk, hck⟩ _
    obtain ⟨v, hv⟩ : ∃ v,
        SOLD_OUT_KEYWORDS.find? (fun k => containsKw (text.map polishLower) k)
          = some v := by
      cases hfind : SOLD_OUT_KEYWORDS.find?
          (fun k => containsKw (text.map polishLower) k) with
      | none =>
          exact absurd hck (by simpa using List.find?_eq_none.mp hfind k hk)
      | some v => exact ⟨v, rfl⟩
    simp [detect_availability, hv]
  · intro hso hav
    have h1 : SOLD_OUT_KEYWORDS.find?
        (fun k => containsKw (text.map polishLower) k) = none :=
      List.find?_eq_none.mpr (by intro k hk; simp [hso k hk])
    have h2 : AVAILABILITY_KEYWORDS.find?
        (fun k => containsKw (text.map polishLower) k) = none :=
      List.find?_eq_none.mpr (by intro k hk; simp [hav k hk])
    simp [detect_availability, h1, h2]

/-- Witness for C7: "Kup bilet! NIEDOSTĘPNE" contains the availability
keyword "kup bilet" and the sold-out keyword "niedostępne" after
lowercasing, and classifies as sold_out. -/
theorem detect_availability_precedence_witness :
    (∃ k ∈ SOLD_OUT_KEYWORDS,
      containsKw ((str "Kup bilet! NIEDOSTĘPNE").map polishLower) k = true) ∧
    (∃ k ∈ AVAILABILITY_KEYWORDS,
      containsKw ((str "Kup bilet! NIEDOSTĘPNE").map polishLower) k = true) ∧
    detect_availability (str "Kup bilet! NIEDOSTĘPNE") = TicketStatus.sold_out :=
  ⟨⟨str "niedostępne", by decide, by decide⟩,
   ⟨str "kup bilet", by decide, by decide⟩,
   (detect_availability_precedence (str "Kup bilet! NIEDOSTĘPNE")).1
     ⟨str "niedostępne", by decide, by decide⟩
     ⟨str "kup bilet", by decide, by decide⟩⟩

/-- A performance whose `opera_house` itself contains the `|` separator
that `unique_id` joins the identity fields with. -/
def perfPipeA : Performance :=
  { opera_name := str "c", opera_house := str "a|b", city := [],
    date := none, date_str := [], time := [], ticket_url := [],
    status := TicketStatus.unknown, price_range := [], venue := [],
    additional_info := [] }

/-- A performance with a different identity tuple than `perfPipeA` but
the same pipe-joined `unique_id`. -/
def perfPipeB : Performance :=
  { opera_name := str "b|c", opera_house := str "a", city := [],
    date := none, date_str := [], time := [], ticket_url := [],
    status := TicketStatus.unknown, price_range := [], venue := [],
    additional_info := [] }

/-- C8, counterexample.  Equality of `Performance` is equality of the
pipe-joined `unique_id` string, which is not injective in the four
identity fields: these two records are equal under the program's
`__eq__` although their venue (and title) components differ, refuting
"equal iff the identity tuples match component by component". -/
theorem performance_eq_not_componentwise :
    Performance.eq perfPipeA perfPipeB = true ∧
    ¬ perfPipeA.opera_house = perfPipeB.opera_house := by
  decide

/-- C8, amended.  Two `Performance` records are equal iff their
`unique_id` strings (the `|`-joined identity fields) are equal;
componentwise equality of the identity tuple is sufficient for record
equality; and the identity — hence equality and the hash derived from
it — ignores every other field (status, ticket URL, parsed date, price
range, sub-venue, notes, city). -/
theorem performance_eq_iff_unique_id (p q : Performance) :
    (Performance.eq p q = true ↔ p.unique_id = q.unique_id) ∧
    ((p.opera_house = q.opera_house ∧ p.opera_name = q.opera_name ∧
      p.date_str = q.date_str ∧ p.time = q.time) →
      Performance.eq p q = true) ∧
    (∀ d url st pr v ai c,
      ({ p with date := d, ticket_url := url, status := st,
                price_range := pr, venue := v, additional_info := ai,
                city := c } : Performance).unique_id = p.unique_id) := by
  refine ⟨by simp [Performance.eq], ?_, fun d url st pr v ai c => rfl⟩
  rintro ⟨h1, h2, h3, h4⟩
  simp [Performance.eq, Performance.unique_id, h1, h2, h3, h4]

/-- Witness for C8 (amended): a status-changed copy of a concrete
performance has a componentwise-equal identity tuple and compares
equal. -/
theorem performance_eq_iff_unique_id_witness :
    (perfHalka.opera_house =
       ({ perfHalka with status := TicketStatus.sold_out } : Performance).opera_house ∧
     perfHalka.opera_name =
       ({ perfHalka with status := TicketStatus.sold_out } : Performance).opera_name ∧
     perfHalka.date_str =
       ({ perfHalka with status := TicketStatus.sold_out } : Performance).date_str ∧
     perfHalka.time =
       ({ perfHalka with status := TicketStatus.sold_out } : Performance).time) ∧
    Performance.eq perfHalka { perfHalka with status := TicketStatus.sold_out } = true :=
  ⟨⟨rfl, rfl, rfl, rfl⟩,
   (performance_eq_iff_unique_id perfHalka
      { perfHalka with status := TicketStatus.sold_out }).2.1 ⟨rfl, rfl, rfl, rfl⟩⟩

/-- The identity keys of the retained representatives are pairwise
distinct and none of them lies in the already-seen set. -/
lemma firstOccAux_uid_nodup (xs : List Performance) : ∀ seen : List Str,
    ((firstOccAux seen xs).map Performance.unique_id).Nodup ∧
    ∀ u ∈ (firstOccAux seen xs).map Performance.unique_id, u ∉ seen := by
  induction xs with
  | nil => intro seen; simp [firstOccAux]
  | cons p t ih =>
      intro seen
      by_cases hp : p.unique_id ∈ seen
      · simpa [firstOccAux, hp] using ih seen
      · have h := ih (p.unique_id :: seen)
        constructor
        · simp only [firstOccAux, hp, if_false, List.map_cons, List.nodup_cons]
          exact ⟨fun hmem => (h.2 _ hmem) (List.mem_cons_self _ _), h.1⟩
        · intro u hu
          simp only [firstOccAux, hp, if_false, List.map_cons, List.mem_cons] at hu
          rcases hu with rfl | hu
          · exact hp
          · exact fun hs => (h.2 u hu) (List.mem_cons_of_mem _ hs)

/-- Every retained representative occurs in the input list. -/
lemma firstOccAux_subset (xs : List Performance) : ∀ seen : List Str,
    ∀ p ∈ firstOccAux seen xs, p ∈ xs := by
  induction xs with
  | nil => intro seen p hp; simp [firstOccAux] at hp
  | cons q t ih =>
      intro seen p hp
      by_cases hq : q.unique_id ∈ seen
      · simp only [firstOccAux, hq, if_true] at hp
        exact List.mem_cons_of_mem _ (ih seen p hp)
      · simp only [firstOccAux, hq, if_false, List.mem_cons] at hp
        rcases hp with rfl | hp
        · exact List.mem_cons_self _ _
        · exact List.mem_cons_of_mem _ (ih _ p hp)

/-- Every input element's identity is either already seen or represented
in the retained list. -/
lemma firstOccAux_covers (xs : List Performance) : ∀ seen : List Str,
    ∀ p ∈ xs, p.unique_id ∈ seen ∨
      ∃ q ∈ firstOccAux seen xs, q.unique_id = p.unique_id := by
  induction xs with
  | nil => intro seen p hp; simp at hp
  | cons r t ih =>
      intro seen p hp
      rcases List.mem_cons.mp hp with rfl | hp
      · by_cases hr : p.unique_id ∈ seen
        · exact Or.inl hr
        · exact Or.inr ⟨p, by simp [firstOccAux, hr], rfl⟩
      · by_cases hr : r.unique_id ∈ seen
        · simpa [firstOccAux, hr] using ih seen p hp
        · rcases ih (r.unique_id :: seen) p hp with hs | ⟨q, hq, hq2⟩
          · rcases List.mem_cons.mp hs with he | hs
            · exact Or.inr ⟨r, by simp [firstOccAux, hr], he.symm⟩
            · exact Or.inl hs
          · exact Or.inr ⟨q, by simp [firstOccAux, hr, List.mem_cons]; right; exact hq, hq2⟩

/-- C6, counterexample.  `list(set(...))` iterates the set in an
unspecified hash order, so an output in reversed order is an admissible
behaviour of the deduplication on a concrete two-element list; the
reversed output is not in the input's relative order, refuting
order-stability. -/
theorem dedup_not_order_stable :
    PySetListAdmissible [perfHalka, perfStraszny] [perfStraszny, perfHalka] ∧
    [perfStraszny, perfHalka] ≠ firstOccurrences [perfHalka, perfStraszny] := by
  constructor
  · have h : firstOccurrences [perfHalka, perfStraszny]
        = [perfHalka, perfStraszny] := by decide
    rw [PySetListAdmissible, h]
    exact List.Perm.swap perfHalka perfStraszny []
  · decide

/-- C6, amended.  Every admissible output of the deduplication carries
pairwise-distinct identity keys, retains exactly the first occurrence of
each identity key of the input (as a set of records), keeps only input
records, and represents every input identity — but the output order is
unspecified, not necessarily the input's relative order. -/
theorem dedup_keeps_first_occurrence_any_order (xs out : List Performance)
    (h : PySetListAdmissible xs out) :
    (out.map Performance.unique_id).Nodup ∧
    (∀ p, p ∈ out ↔ p ∈ firstOccurrences xs) ∧
    (∀ p ∈ out, p ∈ xs) ∧
    (∀ p ∈ xs, ∃ q ∈ out, q.unique_id = p.unique_id) := by
  have hperm : out.Perm (firstOccurrences xs) := h
  refine ⟨?_, ?_, ?_, ?_⟩
  · exact ((hperm.map Performance.unique_id).nodup_iff).mpr
      (firstOccAux_uid_nodup xs []).1
  · exact fun p => hperm.mem_iff
  · exact fun p hp => firstOccAux_subset xs [] p (hperm.mem_iff.mp hp)
  · intro p hp
    rcases firstOccAux_covers xs [] p hp with hs | ⟨q, hq, hq2⟩
    · simp at hs
    · exact ⟨q, hperm.mem_iff.mpr hq, hq2⟩

/-- Witness for C6 (amended): a concrete admissible (reversed-order)
output of deduplicating a list with one duplicated identity, with the
amended conclusions evaluated. -/
theorem dedup_keeps_first_occurrence_any_order_witness :
    PySetListAdmissible
      [perfHalka, perfStraszny, { perfHalka with status := TicketStatus.available }]
      [perfStraszny, perfHalka] ∧
    (([perfStraszny, perfHalka] : List Performance).map Performance.unique_id).Nodup ∧
    (∀ p ∈ ([perfStraszny, perfHalka] : List Performance),
      p ∈ [perfHalka, perfStraszny, { perfHalka with status := TicketStatus.available }]) := by
  have hadm : PySetListAdmissible
      [perfHalka, perfStraszny, { perfHalka with status := TicketStatus.available }]
      [perfStraszny, perfHalka] := by
    have h : firstOccurrences
        [perfHalka, perfStraszny, { perfHalka with status := TicketStatus.available }]
        = [perfHalka, perfStraszny] := by decide
    rw [PySetListAdmissible, h]
    exact List.Perm.swap perfHalka perfStraszny []
  have h := dedup_keeps_first_occurrence_any_order _ _ hadm
  exact ⟨hadm, h.1, h.2.2.1⟩

/-- C3.  `scrape_all_operas` over any adapter family: exactly one result
per enabled venue (disabled venues contribute none), positionally; under
the adapter contract that a normally returned `ScrapeResult` carries its
venue's name and city, every result carries its venue's name and city;
an adapter that raises is converted into a failed result whose error
text is the exception's text, and a normally returned result is passed
through untouched, so the other venues are unaffected. -/
theorem scrape_all_operas_isolates_failures
    (adapter : OperaHouse → Except Str ScrapeResult) (houses : List OperaHouse)
    (hwb : ∀ h r, adapter h = Except.ok r →
      r.opera_house = h.name ∧ r.city = h.city) :
    (scrape_all_operas adapter houses).length
        = (houses.filter (fun h => h.enabled)).length ∧
    (∀ (i : Nat) (h : OperaHouse),
      (houses.filter (fun h => h.enabled))[i]? = some h →
      ∃ r, (scrape_all_operas adapter houses)[i]? = some r ∧
        r.opera_house = h.name ∧ r.city = h.city ∧
        (∀ e, adapter h = Except.error e →
          r = { opera_house := h.name, city := h.city, success := false,
                performances := [], error_message := e }) ∧
        (∀ rr, adapter h = Except.ok rr → r = rr)) := by
  constructor
  · simp [scrape_all_operas]
  · intro i h hi
    cases hadapt : adapter h with
    | ok rr =>
        refine ⟨rr, ?_, (hwb h rr hadapt).1, (hwb h rr hadapt).2, ?_, ?_⟩
        · simp [scrape_all_operas, List.getElem?_map, hi, hadapt]
        · intro e he
          exact absurd he (by simp)
        · intro rr2 he
          cases he
          rfl
    | error e =>
        refine ⟨{ opera_house := h.name, city := h.city, success := false,
                  performances := [], error_message := e }, ?_, rfl, rfl, ?_, ?_⟩
        · simp [scrape_all_operas, List.getElem?_map, hi, hadapt]
        · intro e2 he
          cases he
          rfl
        · intro rr2 he
          exact absurd he (by simp)

/-- The concrete three-venue adapter family of the orchestrator
scenario: the second venue's adapter raises, the others return a
successful result for their venue. -/
def adapter3 (h : OperaHouse) : Except Str ScrapeResult :=
  if h.name = str "Opera Krakowska" then Except.error (str "boom")
  else Except.ok
    { opera_house := h.name, city := h.city, success := true,
      performances := [], error_message := [] }

/-- The three enabled venues of the scenario (plus a disabled one, which
must contribute no result). -/
def houses3 : List OperaHouse :=
  [⟨str "Teatr Wielki - Opera Narodowa", str "Warszawa", true⟩,
   ⟨str "Opera Krakowska", str "Kraków", true⟩,
   ⟨str "Opera Wrocławska", str "Wrocław", true⟩,
   ⟨str "Opera Nova", str "Bydgoszcz", false⟩]

/-- `adapter3` respects the adapter contract. -/
lemma adapter3_wellbehaved : ∀ h r, adapter3 h = Except.ok r →
    r.opera_house = h.name ∧ r.city = h.city := by
  intro h r hr
  unfold adapter3 at hr
  split at hr
  · exact absurd hr (by simp)
  · cases hr; exact ⟨rfl, rfl⟩

/-- Witness for C3: with 3 enabled venues of which one adapter throws,
exactly 3 results come back, exactly one failed, its error text
non-empty, and the other two unaffected (successful). -/
theorem scrape_all_operas_isolates_failures_witness :
    (scrape_all_operas adapter3 houses3).length = 3 ∧
    ((scrape_all_operas adapter3 houses3).filter (fun r => !r.success)).length = 1 ∧
    (∀ r ∈ scrape_all_operas adapter3 houses3,
      r.success = false → ¬ r.error_message = []) ∧
    (scrape_all_operas adapter3 houses3).map (fun r => r.success)
      = [true, false, true] := by
  have h := scrape_all_operas_isolates_failures adapter3 houses3 adapter3_wellbehaved
  exact ⟨h.1.trans (by decide), by decide, by decide, by decide⟩

/-- C9, counterexample.  On "32.01.2025 15 maja 2025" the first pattern
(`DD.MM.YYYY`) does match — `re.search` finds "32.01.2025" — and its
numbers form an invalid calendar date (day 32); the claim then requires
`none`, but the code `continue`s with the later patterns and returns
15 May 2025 from the month-name pattern. -/
theorem parse_polish_date_invalid_not_none :
    searchPos (tryDMYAt '.') (str "32.01.2025 15 maja 2025")
      = some (32, 1, 2025) ∧
    mkDate 2025 1 32 = none ∧
    parse_polish_date (str "32.01.2025 15 maja 2025")
      = some ⟨2025, 5, 15, 0, 0, 0, 0⟩ := by
  decide

/-- C9, amended.  `parse_polish_date` tries `DD.MM.YYYY`, `DD/MM/YYYY`,
`YYYY-MM-DD`, `DD <month-name> YYYY` in this order and the first pattern
that matches AND yields a valid calendar date wins; a pattern that does
not match, or whose first match yields an invalid calendar date, is
skipped and the later patterns are still tried; the result is `none`
iff every pattern fails to produce a valid date. -/
theorem parse_polish_date_first_valid (s : Str) :
    (∀ dt, datePat1 s = some dt → parse_polish_date s = some dt) ∧
    (datePat1 s = none →
      ∀ dt, datePat2 s = some dt → parse_polish_date s = some dt) ∧
    (datePat1 s = none → datePat2 s = none →
      ∀ dt, datePat3 s = some dt → parse_polish_date s = some dt) ∧
    (datePat1 s = none → datePat2 s = none → datePat3 s = none →
      parse_polish_date s = datePat4 s) ∧
    (parse_polish_date s = none ↔
      datePat1 s = none ∧ datePat2 s = none ∧ datePat3 s = none ∧
      datePat4 s = none) := by
  refine ⟨?_, ?_, ?_, ?_, ?_⟩
  · intro dt h1; simp [parse_polish_date, h1]
  · intro h1 dt h2; simp [parse_polish_date, h1, h2]
  · intro h1 h2 dt h3; simp [parse_polish_date, h1, h2, h3]
  · intro h1 h2 h3; simp [parse_polish_date, h1, h2, h3]
  · constructor
    · intro h
      unfold parse_polish_date at h
      cases h1 : datePat1 s with
      | some dt => rw [h1] at h; exact absurd h (by simp)
      | none =>
          rw [h1] at h
          cases h2 : datePat2 s with
          | some dt => rw [h2] at h; exact absurd h (by simp)
          | none =>
              rw [h2] at h
              cases h3 : datePat3 s with
              | some dt => rw [h3] at h; exact absurd h (by simp)
              | none => rw [h3] at h; exact ⟨rfl, rfl, rfl, h⟩
    · rintro ⟨h1, h2, h3, h4⟩
      simp [parse_polish_date, h1, h2, h3, h4]

/-- Witness for C9 (amended): "15.06.2026" is matched and validated by
the first pattern, and parses to 15 June 2026. -/
theorem parse_polish_date_first_valid_witness :
    datePat1 (str "15.06.2026") = some ⟨2026, 6, 15, 0, 0, 0, 0⟩ ∧
    parse_polish_date (str "15.06.2026") = some ⟨2026, 6, 15, 0, 0, 0, 0⟩ :=
  ⟨by decide,
   (parse_polish_date_first_valid (str "15.06.2026")).1 _ (by decide)⟩

/-- Value of the digit character of `n < 10`. -/
lemma dval_dchar (n : Nat) (h : n < 10) : dval (dchar n) = n := by
  interval_cases n <;> rfl

/-- The digit character of `n < 10` is a digit. -/
lemma isDig_dchar (n : Nat) (h : n < 10) : isDig (dchar n) = true := by
  interval_cases n <;> rfl

/-- `try2Dig` inverts `pad2` on two-digit numbers. -/
lemma try2Dig_pad2 (n : Nat) (h : n ≤ 99) :
    ∀ rest, try2Dig (pad2 n ++ rest) = some (n, rest) := by
  intro rest
  have h1 : n / 10 < 10 := by omega
  have h2 : n % 10 < 10 := by omega
  simp [pad2, try2Dig, isDig_dchar _ h1, isDig_dchar _ h2, natOfDigits,
    dval_dchar _ h1, dval_dchar _ h2]
  omega

/-- `try4Dig` inverts `pad4` on four-digit numbers. -/
lemma try4Dig_pad4 (n : Nat) (h : n ≤ 9999) :
    ∀ rest, try4Dig (pad4 n ++ rest) = some (n, rest) := by
  intro rest
  have h1 : n / 1000 < 10 := by omega
  have h2 : n / 100 % 10 < 10 := by omega
  have h3 : n / 10 % 10 < 10 := by omega
  have h4 : n % 10 < 10 := by omega
  simp [pad4, try4Dig, isDig_dchar _ h1, isDig_dchar _ h2, isDig_dchar _ h3,
    isDig_dchar _ h4, natOfDigits, dval_dchar _ h1, dval_dchar _ h2,
    dval_dchar _ h3, dval_dchar _ h4]
  omega

/-- `try6Dig` inverts `pad6` on six-digit numbers. -/
lemma try6Dig_pad6 (n : Nat) (h : n ≤ 999999) :
    ∀ rest, try6Dig (pad6 n ++ rest) = some (n, rest) := by
  intro rest
  have h1 : n / 100000 < 10 := by omega
  have h2 : n / 10000 % 10 < 10 := by omega
  have h3 : n / 1000 % 10 < 10 := by omega
  have h4 : n / 100 % 10 < 10 := by omega
  have h5 : n / 10 % 10 < 10 := by omega
  have h6 : n % 10 < 10 := by omega
  simp [pad6, try6Dig, isDig_dchar _ h1, isDig_dchar _ h2, isDig_dchar _ h3,
    isDig_dchar _ h4, isDig_dchar _ h5, isDig_dchar _ h6, natOfDigits,
    dval_dchar _ h1, dval_dchar _ h2, dval_dchar _ h3, dval_dchar _ h4,
    dval_dchar _ h5, dval_dchar _ h6]
  omega

/-- `try2Dig` inverts `pad2` at the end of the input. -/
lemma try2Dig_pad2_self (n : Nat) (h : n ≤ 99) :
    try2Dig (pad2 n) = some (n, []) := by
  simpa using try2Dig_pad2 n h []

/-- `try6Dig` inverts `pad6` at the end of the input. -/
lemma try6Dig_pad6_self (n : Nat) (h : n ≤ 999999) :
    try6Dig (pad6 n) = some (n, []) := by
  simpa using try6Dig_pad6 n h []

/-- `expectChar` accepts its own character. -/
lemma expectChar_cons (c : Char) (rest : Str) :
    expectChar c (c :: rest) = some rest := by
  simp [expectChar]

/-- Every month has at most 31 days. -/
lemma daysInMonth_le (y m : Nat) : daysInMonth y m ≤ 31 := by
  unfold daysInMonth
  split_ifs <;> omega

set_option maxHeartbeats 1000000 in
/-- `fromisoformat` inverts `isoformat` on every valid `datetime`. -/
lemma fromisoformat_isoformat (d : Datetime) (h : ValidDatetime d) :
    fromisoformat d.isoformat = some d := by
  obtain ⟨y, mo, da, ho, mi, se, mic⟩ := d
  have hv : 1 ≤ y ∧ y ≤ 9999 ∧ 1 ≤ mo ∧ mo ≤ 12 ∧ 1 ≤ da ∧
      da ≤ daysInMonth y mo ∧ ho ≤ 23 ∧ mi ≤ 59 ∧ se ≤ 59 ∧ mic ≤ 999999 := h
  obtain ⟨h1, h2, h3, h4, h5, h6, h7, h8, h9, h10⟩ := hv
  have hda : da ≤ 99 := le_trans h6 (le_trans (daysInMonth_le y mo) (by omega))
  by_cases hm : mic = 0
  · subst hm
    have hiso : Datetime.isoformat ⟨y, mo, da, ho, mi, se, 0⟩
        = pad4 y ++ '-' :: (pad2 mo ++ '-' :: (pad2 da ++ 'T' ::
          (pad2 ho ++ ':' :: (pad2 mi ++ ':' :: (pad2 se ++ []))))) := rfl
    rw [hiso]
    simp [fromisoformat, try4Dig_pad4 y h2, expectChar_cons,
      try2Dig_pad2 mo (by omega), try2Dig_pad2 da hda,
      try2Dig_pad2 ho (by omega), try2Dig_pad2 mi (by omega),
      try2Dig_pad2_self se (by omega), h1, h3, h4, h5, h6, h7, h8, h9]
  · have hiso : Datetime.isoformat ⟨y, mo, da, ho, mi, se, mic⟩
        = pad4 y ++ '-' :: (pad2 mo ++ '-' :: (pad2 da ++ 'T' ::
          (pad2 ho ++ ':' :: (pad2 mi ++ ':' :: (pad2 se ++
            '.' :: (pad6 mic ++ [])))))) := by
      simp only [Datetime.isoformat]
      rw [if_neg hm]
      simp
    rw [hiso]
    simp [fromisoformat, try4Dig_pad4 y h2, expectChar_cons,
      try2Dig_pad2 mo (by omega), try2Dig_pad2 da hda,
      try2Dig_pad2 ho (by omega), try2Dig_pad2 mi (by omega),
      try2Dig_pad2 se (by omega), try6Dig_pad6_self mic h10,
      h1, h3, h4, h5, h6, h7, h8, h9]

/-- Mapping `fromisoformat` back over `isoformat`-rendered dict values
recovers the original association list. -/
lemma mapM_fromisoformat_isoformat (l : List (Str × Datetime))
    (hv : ∀ kv ∈ l, ValidDatetime kv.2) :
    mapOption (fun kv => (fromisoformat kv.2).map (fun t => (kv.1, t)))
      (l.map (fun kv => (kv.1, kv.2.isoformat))) = some l := by
  induction l with
  | nil => rfl
  | cons kv t ih =>
      have h1 := hv kv (List.mem_cons_self _ _)
      have h2 : ∀ x ∈ t, ValidDatetime x.2 :=
        fun x hx => hv x (List.mem_cons_of_mem _ hx)
      simp [mapOption, fromisoformat_isoformat kv.2 h1, ih h2]

/-- C10.  Persistence round-trip: loading the data just written by
`save(state)` succeeds and yields a state with the same notified set,
the same check-time map (every timestamp round-tripped exactly through
ISO format), and an empty `last_results` — that field is never
persisted. -/
theorem monitor_state_save_load_roundtrip (s : MonitorState) (d : SavedState)
    (hsave : SaveWrites s d)
    (hvalid : ∀ kv ∈ s.last_check_times, ValidDatetime kv.2) :
    MonitorState.load d = some
      { notified_performances := s.notified_performances,
        last_check_times := s.last_check_times,
        last_results := [] } := by
  obtain ⟨hnodup, hset, htimes⟩ := hsave
  unfold MonitorState.load
  rw [htimes, hset, mapM_fromisoformat_isoformat s.last_check_times hvalid]
  rfl

/-- A concrete state for the persistence witness. -/
def stateW : MonitorState :=
  { notified_performances := {str "k"},
    last_check_times :=
      [(str "Teatr Wielki - Opera Narodowa", ⟨2026, 10, 12, 8, 30, 0, 0⟩)],
    last_results := [] }

/-- The concrete payload `save` writes for `stateW`. -/
def savedW : SavedState :=
  { notified_performances := [str "k"],
    last_check_times :=
      [(str "Teatr Wielki - Opera Narodowa", str "2026-10-12T08:30:00")] }

/-- Witness for C10 at the concrete state: the payload is an admissible
output of `save`, and `load` recovers the state with empty
`last_results`. -/
theorem monitor_state_save_load_roundtrip_witness :
    SaveWrites stateW savedW ∧
    MonitorState.load savedW = some
      { notified_performances := stateW.notified_performances,
        last_check_times := stateW.last_check_times,
        last_results := [] } := by
  have hs : SaveWrites stateW savedW := ⟨by decide, by decide, by decide⟩
  refine ⟨hs, monitor_state_save_load_roundtrip stateW savedW hs ?_⟩
  intro kv hkv
  simp [stateW] at hkv
  subst hkv
  exact ⟨by decide, by decide, by decide, by decide, by decide, by decide,
         by decide, by decide, by decide, by decide⟩

/-- Appending the seats that `ps` still holds for a row onto that row's
already-collected seats (the effect of folding `ps` into an accumulator
that already has the row). -/
def extendRow (ps : List (Str × Nat)) (rs : Str × List Nat) : Str × List Nat :=
  (rs.1, rs.2 ++ (ps.filter (fun q => decide (q.1 = rs.1))).map Prod.snd)

/-- The emission loop equals the zip-with-tail formulation of
"one descriptor per consecutive pair differing by one". -/
lemma adjDescr_eq_zip (row : Str) : ∀ l : List Nat,
    adjDescr row l = (l.zip l.tail).filterMap
      (fun ab => if ab.2 - ab.1 = 1 then some (seatPairDescr row ab.1 ab.2)
                 else none) := by
  intro l
  induction l with
  | nil => rfl
  | cons a t ih =>
      cases t with
      | nil => rfl
      | cons b t2 =>
          by_cases h : b - a = 1 <;>
            simp [adjDescr, List.filterMap_cons, h, ih]

/-- Folding the raw identifier list equals folding the parsed pair list
(unparseable identifiers are dropped). -/
lemma buildRows_eq_foldl_parsed (ids : List Str) :
    buildRows ids = (ids.filterMap parseSeatId).foldl
      (fun acc rs => addSeat acc rs.1 rs.2) [] := by
  suffices h : ∀ acc : List (Str × List Nat),
      ids.foldl (fun acc id =>
        match parseSeatId id with
        | some rs => addSeat acc rs.1 rs.2
        | none => acc) acc
      = (ids.filterMap parseSeatId).foldl
          (fun acc rs => addSeat acc rs.1 rs.2) acc from h []
  induction ids with
  | nil => intro acc; rfl
  | cons id t ih =>
      intro acc
      cases hp : parseSeatId id <;>
        simp [List.filterMap_cons, hp, ih]

/-- The keys of the accumulator after one `addSeat`. -/
lemma addSeat_keys (acc : List (Str × List Nat)) (row : Str) (seat : Nat) :
    (addSeat acc row seat).map Prod.fst =
      if row ∈ acc.map Prod.fst then acc.map Prod.fst
      else acc.map Prod.fst ++ [row] := by
  unfold addSeat
  by_cases h : row ∈ acc.map Prod.fst
  · simp only [if_pos h, List.map_map]
    have hf : (Prod.fst ∘ fun rs : Str × List Nat =>
        if rs.1 = row then (rs.1, rs.2 ++ [seat]) else rs) = Prod.fst := by
      funext rs
      by_cases hr : rs.1 = row <;> simp [hr]
    rw [hf]
  · simp [if_neg h]

/-- The grouping invariant of `_find_adjacent_seats`: folding the parsed
pairs into an accumulator extends the rows the accumulator already has
and appends, in first-occurrence order, groups for the new rows. -/
lemma foldl_addSeat_eq (ps : List (Str × Nat)) : ∀ acc : List (Str × List Nat),
    ps.foldl (fun acc rs => addSeat acc rs.1 rs.2) acc =
      acc.map (extendRow ps) ++
      groupByRow (ps.filter (fun q => !decide (q.1 ∈ acc.map Prod.fst))) := by
  induction ps with
  | nil =>
      intro acc
      have hid : extendRow ([] : List (Str × Nat)) = id := by
        funext rs
        simp [extendRow]
      simp [groupByRow, hid]
  | cons q ps ih =>
      obtain ⟨qr, qs⟩ := q
      intro acc
      rw [List.foldl_cons, ih (addSeat acc qr qs)]
      by_cases hq : qr ∈ acc.map Prod.fst
      · have hkeys : (addSeat acc qr qs).map Prod.fst = acc.map Prod.fst := by
          rw [addSeat_keys, if_pos hq]
        have hmap : (addSeat acc qr qs).map (extendRow ps)
            = acc.map (extendRow ((qr, qs) :: ps)) := by
          unfold addSeat
          rw [if_pos hq, List.map_map]
          apply List.map_congr_left
          intro rs _
          by_cases hr : rs.1 = qr
          · simp [extendRow, hr, List.filter_cons]
          · have hr2 : ¬ qr = rs.1 := fun h => hr h.symm
            simp [extendRow, hr, List.filter_cons, hr2]
        have hfilter : (((qr, qs) :: ps).filter
            (fun p => !decide (p.1 ∈ acc.map Prod.fst)))
            = ps.filter (fun p => !decide (p.1 ∈ acc.map Prod.fst)) := by
          simp [List.filter_cons, hq]
        rw [hmap, hkeys, hfilter]
      · have haddseat : addSeat acc qr qs = acc ++ [(qr, [qs])] := by
          unfold addSeat
          rw [if_neg hq]
        have hmapacc : acc.map (extendRow ps)
            = acc.map (extendRow ((qr, qs) :: ps)) := by
          apply List.map_congr_left
          intro rs hrs
          have hne : ¬ qr = rs.1 := fun h =>
            hq (h ▸ List.mem_map_of_mem Prod.fst hrs)
          simp [extendRow, List.filter_cons, hne]
        have hfilt : (ps.filter
              (fun p => !decide (p.1 ∈ acc.map Prod.fst))).filter
                (fun p => decide (p.1 = qr))
            = ps.filter (fun p => decide (p.1 = qr)) := by
          rw [List.filter_filter]
          apply List.filter_congr
          intro p _
          by_cases hp : p.1 = qr
          · simp [hp, hq]
          · simp [hp]
        have htail : (ps.filter
              (fun p => !decide (p.1 ∈ acc.map Prod.fst ++ [qr])))
            = ((ps.filter (fun p => !decide (p.1 ∈ acc.map Prod.fst))).filter
                (fun p => !decide (p.1 = qr))) := by
          rw [List.filter_filter]
          apply List.filter_congr
          intro p _
          by_cases hp1 : p.1 = qr <;> by_cases hp2 : p.1 ∈ acc.map Prod.fst <;>
            simp [hp1, hp2, List.mem_append]
        rw [haddseat]
        simp only [List.map_append, List.map_cons, List.map_nil]
        rw [htail]
        rw [List.filter_cons]
        simp only [hq, decide_False, Bool.not_false, if_true]
        simp only [groupByRow]
        rw [hmapacc, hfilt]
        simp [extendRow, List.append_assoc]

/-- With an empty accumulator, the fold groups the parsed pairs exactly
as the spec's group-by does. -/
lemma buildRows_eq_groupByRow (ids : List Str) :
    buildRows ids = groupByRow (ids.filterMap parseSeatId) := by
  rw [buildRows_eq_foldl_parsed, foldl_addSeat_eq]
  simp

/-- C4.  The adjacency algorithm refines the spec: for every list of
seat identifiers it parses each one by the fixed patterns (dropping
unmatched identifiers), groups by row, sorts each row ascending and
emits exactly one descriptor per consecutive sorted pair differing by
one; on the spec's example {R5-10, R5-11, R5-13, R8-3, R8-4} the output
is exactly the two descriptors for row 5 seats 10-11 and row 8 seats
3-4 (seat 13 contributes none). -/
theorem find_adjacent_seats_spec :
    (∀ ids, find_adjacent_seats ids = adjacency_spec ids) ∧
    find_adjacent_seats
        [str "R5-10", str "R5-11", str "R5-13", str "R8-3", str "R8-4"]
      = [str "Rząd 5, miejsca 10-11", str "Rząd 8, miejsca 3-4"] := by
  constructor
  · intro ids
    unfold find_adjacent_seats adjacency_spec
    rw [buildRows_eq_groupByRow]
    simp only [adjDescr_eq_zip]
  · decide
